import Mathlib

/-!
Verification of the recipe-insights two-pass extraction pipeline.

The definitions below are a shallow embedding of the Python sources under
src/recipe_board: the domain model (core/recipe.py, core/state.py), the
response cleaner and Pass 1 conversion (agents/entity_workflow.py), the
Pass 2 dependency linking (agents/parsing_agent.py, agents/tools.py) and
the dependency graph builder (agents/graph_tools.py).

Python dicts decoded from model JSON are embedded as typed records in
which a field of type Option marks key presence (and, where the source
distinguishes it, a nested Option marks a JSON null).  The uuid4 identity
generator is embedded as an explicit id-supply function, and the
generative model and its JSON decoding are embedded as explicit outcome
arguments, since they are external collaborators of the pipeline.
-/

namespace RecipeBoard

/-- Python float rendering of a rational (str(float) for decimally
representable values): integers print with a trailing ".0", other
terminating decimals print their shortest decimal expansion. -/
def pyFloatStr (q : ℚ) : String :=
  let sign := if q < 0 then "-" else ""
  let a := |q|
  if a.den = 1 then sign ++ toString a.num ++ ".0"
  else
    match (List.range 17).find? (fun k => (a * (10 : ℚ) ^ (k + 1)).den == 1) with
    | some k =>
      let e := k + 1
      let m := (a * (10 : ℚ) ^ e).num.toNat
      let ip := m / 10 ^ e
      let fp := m % 10 ^ e
      let fpStr := toString fp
      let pad := String.mk (List.replicate (e - fpStr.length) '0')
      sign ++ toString ip ++ "." ++ pad ++ fpStr
    | none => sign ++ toString a.num ++ "/" ++ toString a.den

/-- JSON numeric value as Python json.loads produces it: an int or a float.
A float is embedded as the decimal literal it came from, mantissa times
ten to the minus exponent (e.g. 2.5 is jfloat 25 1), since Python renders
such floats back as their shortest decimal literal. -/
inductive JNum
  | jint (n : ℤ)
  | jfloat (m : ℤ) (e : ℕ)
deriving DecidableEq

/-- Python str() of a JSON number: ints print bare, floats with a decimal
point (and a trailing ".0" for integral floats). -/
def JNum.str : JNum → String
  | .jint n => toString n
  | .jfloat m e =>
    if e = 0 then toString m ++ ".0"
    else
      (if m < 0 then "-" else "") ++ toString (m.natAbs / 10 ^ e) ++ "." ++
        (String.mk (List.replicate (e - (toString (m.natAbs % 10 ^ e)).length) '0') ++
          toString (m.natAbs % 10 ^ e))

/-- The numeric value of a JSON number after Pydantic float coercion. -/
def JNum.toRat : JNum → ℚ
  | .jint n => (n : ℚ)
  | .jfloat m e => (m : ℚ) / (10 : ℚ) ^ e

/-- Ingredient (core/recipe.py).  The uuid4 id is an opaque string. -/
structure Ingredient where
  id : String
  name : String
  amount : Option ℚ
  unit : Option String
  modifiers : List String
  raw_text : String
deriving DecidableEq

/-- Equipment (core/recipe.py). -/
structure Equipment where
  id : String
  name : String
  required : Bool := true
  modifiers : Option String
deriving DecidableEq

/-- BasicAction (core/recipe.py): a cooking verb identified in the first pass. -/
structure BasicAction where
  verb : String
  sentence : String
  sentence_index : ℤ
deriving DecidableEq

/-- Action (core/recipe.py): a verb linked to ingredient and equipment ids. -/
structure Action where
  id : String
  name : String
  ingredient_ids : List String
  equipment_id : String
deriving DecidableEq

/-- ParsingState (core/state.py). -/
inductive ParsingState
  | INITIAL
  | PARSING_RECIPE
  | PARSING_DEPENDENCIES
  | COMPLETED
  | ERROR
  | DEPENDENCIES_ERROR
deriving DecidableEq

/-- RecipeSessionState (core/state.py): the aggregate session record. -/
structure RecipeSessionState where
  raw_text : String := ""
  ingredients : List Ingredient := []
  equipment : List Equipment := []
  basic_actions : List BasicAction := []
  actions : List Action := []
  parsing_state : ParsingState := ParsingState.INITIAL
deriving DecidableEq

/-- has_parsed_data (core/state.py line 46): both ingredients and equipment present. -/
def RecipeSessionState.has_parsed_data (s : RecipeSessionState) : Bool :=
  decide (0 < s.ingredients.length) && decide (0 < s.equipment.length)

/-- A session with one ingredient and no equipment, used to exhibit that
has_parsed_data is strictly stronger than the ingredients-or-equipment test. -/
def sessionIngredientsOnly : RecipeSessionState :=
  { raw_text := "flour"
    ingredients := [{ id := "i1", name := "flour", amount := some 2, unit := some "cups",
                      modifiers := [], raw_text := "2 cups flour" }]
    equipment := []
    parsing_state := ParsingState.COMPLETED }

/-- A top-level JSON array field as _convert_json_to_objects reads it: the key
may be missing, hold a non-array value, or hold an array of items. -/
inductive JsonField (α : Type)
  | missing
  | notArray
  | arr (items : List α)
deriving DecidableEq

/-- A missing or non-array field is treated as the empty list
(entity_workflow.py lines 70-78). -/
def JsonField.resolve : JsonField α → List α
  | .arr l => l
  | _ => []

/-- A JSON array element as the converters see it: either not a dict
(skipped with a warning) or a dict of typed fields. -/
inductive JsonItem (α : Type)
  | notDict
  | dict (item : α)
deriving DecidableEq

/-- The modifiers value of an ingredient dict, before normalization:
missing key, JSON null, a string, a list of strings, or any other type. -/
inductive ModifiersVal
  | missing
  | nullv
  | strv (s : String)
  | listv (l : List String)
  | otherv
deriving DecidableEq

/-- An ingredient dict from the Pass 1 JSON.  A field of value none means the
key is missing (or, for amount and unit, JSON null, which .get conflates with
a missing key for the purposes of the code paths that read them). -/
structure IngredientItem where
  name : Option String := none
  amount : Option JNum := none
  unit : Option String := none
  modifiers : ModifiersVal := ModifiersVal.missing
deriving DecidableEq

/-- An equipment dict from the Pass 1 JSON. -/
structure EquipmentItem where
  name : Option String := none
  required : Option Bool := none
  modifiers : Option String := none
deriving DecidableEq

/-- A basic-action dict from the Pass 1 JSON. -/
structure BasicActionItem where
  verb : Option String := none
  sentence : Option String := none
  sentence_index : Option ℤ := none
deriving DecidableEq

/-- The decoded Pass 1 response object (the dict handed to
_convert_json_to_objects). -/
structure ParsedJson where
  ingredients : JsonField (JsonItem IngredientItem) := JsonField.missing
  equipment : JsonField (JsonItem EquipmentItem) := JsonField.missing
  basic_actions : JsonField (JsonItem BasicActionItem) := JsonField.missing
deriving DecidableEq

/-- Modifiers normalization (entity_workflow.py lines 93-99): a non-empty
string becomes a singleton list, null/missing/other become the empty list,
a list is kept as given. -/
def normalizeModifiers : ModifiersVal → List String
  | .missing => []
  | .nullv => []
  | .strv s => if s ≠ "" then [s] else []
  | .listv l => l
  | .otherv => []

/-- raw_text assembly (entity_workflow.py lines 105-113): amount (stringified,
when not null), unit (when truthy), then name unconditionally, then the
modifiers when the list is non-empty, joined by single spaces. -/
def ingredientRawText (amount : Option JNum) (unitv : Option String)
    (name : String) (modifiers : List String) : String :=
  let parts :=
    (match amount with
      | some a => [a.str]
      | none => [])
    ++ (match unitv with
      | some u => if u ≠ "" then [u] else []
      | none => [])
    ++ [name]
    ++ (if modifiers ≠ [] then modifiers else [])
  " ".intercalate parts

/-- Conversion of one ingredient item (entity_workflow.py lines 87-128); the
id is assigned afterwards by the id supply.  In this typed embedding the
Ingredient constructor cannot fail, mirroring that Pydantic accepts every
well-typed field combination. -/
def convertIngredientItem : JsonItem IngredientItem → Option Ingredient
  | .notDict => none
  | .dict it =>
    let modifiers := normalizeModifiers it.modifiers
    let name := it.name.getD ""
    some { id := ""
           name := name
           amount := it.amount.map JNum.toRat
           unit := it.unit
           modifiers := modifiers
           raw_text := ingredientRawText it.amount it.unit name modifiers }

/-- Conversion of one equipment item (entity_workflow.py lines 132-146):
required defaults to true, modifiers stays as given. -/
def convertEquipmentItem : JsonItem EquipmentItem → Option Equipment
  | .notDict => none
  | .dict it =>
    some { id := ""
           name := it.name.getD ""
           required := it.required.getD true
           modifiers := it.modifiers }

/-- Conversion of one basic-action item (entity_workflow.py lines 150-166). -/
def convertBasicActionItem : JsonItem BasicActionItem → Option BasicAction
  | .notDict => none
  | .dict it =>
    some { verb := it.verb.getD ""
           sentence := it.sentence.getD ""
           sentence_index := it.sentence_index.getD 0 }

/-- Embeds _convert_json_to_objects (entity_workflow.py lines 52-168): per-item
tolerant conversion of the three top-level arrays; uuid assignment is
embedded as the explicit id supplies ingIds and eqIds. -/
def _convert_json_to_objects (ingIds eqIds : ℕ → String) (p : ParsedJson) :
    List Ingredient × List Equipment × List BasicAction :=
  let ingredients := (p.ingredients.resolve.filterMap convertIngredientItem).enum.map
    (fun pr => { pr.2 with id := ingIds pr.1 })
  let equipment_list := (p.equipment.resolve.filterMap convertEquipmentItem).enum.map
    (fun pr => { pr.2 with id := eqIds pr.1 })
  let basic_actions_list := p.basic_actions.resolve.filterMap convertBasicActionItem
  (ingredients, equipment_list, basic_actions_list)

/-- The raw_text the spec describes: the single-space join of the non-empty
parts in the fixed order amount, unit, name, modifiers. -/
def specRawTextNonEmptyJoin (amount : Option JNum) (unitv : Option String)
    (name : String) (modifiers : List String) : String :=
  " ".intercalate
    (((match amount with | some a => [a.str] | none => [])
      ++ (match unitv with | some u => [u] | none => [])
      ++ [name] ++ modifiers).filter (fun part => part ≠ ""))

/-- An ingredient dict with a missing name and one modifier: the code joins
the empty name into raw_text, producing a leading space. -/
def ingredientItemNoName : JsonItem IngredientItem :=
  JsonItem.dict { modifiers := ModifiersVal.strv "diced" }

/-- Whitespace as Python str.strip() removes it (restricted to the ASCII
whitespace that occurs in model responses). -/
def isWS (c : Char) : Bool :=
  c = ' ' || c = '\t' || c = '\n' || c = '\r'

/-- Python str.strip(): drop whitespace from both ends. -/
def trimL (l : List Char) : List Char :=
  (l.dropWhile isWS).rdropWhile isWS

/-- The remainder of l after the first occurrence of pat, or none when pat
does not occur (the tail side of a leftmost regex match). -/
def afterFirst? (pat : List Char) : List Char → Option (List Char)
  | [] => if pat.isPrefixOf ([] : List Char) then some [] else none
  | c :: t =>
    if pat.isPrefixOf (c :: t) then some ((c :: t).drop pat.length)
    else afterFirst? pat t

/-- The part of l strictly before the first occurrence of pat, or none when
pat does not occur (the non-greedy content side of a regex match). -/
def beforeFirst? (pat : List Char) : List Char → Option (List Char)
  | [] => if pat.isPrefixOf ([] : List Char) then some [] else none
  | c :: t =>
    if pat.isPrefixOf (c :: t) then some []
    else (beforeFirst? pat t).map (fun r => c :: r)

/-- The json-tagged fence branch of _extract_json_from_response
(entity_workflow.py line 25): the content between a fence opener tagged json
and the next closing fence, stripped. -/
def jsonFence? (l : List Char) : Option (List Char) :=
  (afterFirst? ("```json".data) l).bind
    (fun rest => (beforeFirst? ("```".data) rest).map trimL)

/-- The generic fence branch (entity_workflow.py line 33): the content
between the first fence and the next fence, stripped. -/
def genericFence? (l : List Char) : Option (List Char) :=
  (afterFirst? ("```".data) l).bind
    (fun rest => (beforeFirst? ("```".data) rest).map trimL)

/-- Second stage of the brace search: the reversed tail after dropping
everything past the last closing brace; empty means no closing brace. -/
def braceSpanClose : List Char → Option (List Char)
  | [] => none
  | rb :: revMid => some ((rb :: revMid).reverse)

/-- First stage of the brace search: l with everything before the first
opening brace dropped; empty means no opening brace. -/
def braceSpanOpen : List Char → Option (List Char)
  | [] => none
  | lb :: rest => braceSpanClose ((lb :: rest).reverse.dropWhile (fun c => c ≠ '}'))

/-- The greedy brace branch (entity_workflow.py line 41): the span from the
first opening brace to the last closing brace after it, when such a span
exists.  This matches the leftmost match of a greedy dotall brace regex. -/
def braceSpan? (l : List Char) : Option (List Char) :=
  braceSpanOpen (l.dropWhile (fun c => c ≠ '{'))

/-- Embeds _extract_json_from_response (entity_workflow.py lines 15-49) on the
character list of the response: strip; empty input returns immediately;
then the json fence, the generic fence, and the greedy brace span are tried
in order; otherwise the stripped text is returned unchanged. -/
def cleanChars (l : List Char) : List Char :=
  let t := trimL l
  if t = [] then t
  else
    match jsonFence? t with
    | some extracted => extracted
    | none =>
      match genericFence? t with
      | some extracted => extracted
      | none =>
        match braceSpan? t with
        | some span => trimL span
        | none => t

/-- Embeds _extract_json_from_response as a String → String function. -/
def extract_json_from_response (response : String) : String :=
  String.mk (cleanChars response.data)

/-- A string is fence-free when it contains no triple-backtick fence. -/
abbrev fenceFree (s : String) : Prop :=
  ¬ ("```".data <:+: s.data)

/-- A spaCy token as the boundary component sees it: its text and its
sentence-start flag. -/
structure Tok where
  text : String
  is_sent_start : Bool
deriving DecidableEq

/-- Mark the token at index j as a sentence start (doc[j].is_sent_start = True). -/
def setStart : List Tok → ℕ → List Tok
  | [], _ => []
  | t :: ts, 0 => { t with is_sent_start := true } :: ts
  | t :: ts, j + 1 => t :: setStart ts j

/-- Python str.endswith with a tuple of suffixes. -/
def pyEndsWith (s : String) (suffixes : List String) : Bool :=
  suffixes.any (fun t => t.data.isSuffixOf s.data)

/-- The text of the token at index i (out-of-range reads never occur in the
modelled loops; the default is inert). -/
def textAt (doc : List Tok) (i : ℕ) : String :=
  (doc.getD i { text := "", is_sent_start := false }).text

/-- The sentence-start flag of the token at index i. -/
def startAt (doc : List Tok) (i : ℕ) : Bool :=
  (doc.getD i { text := "", is_sent_start := false }).is_sent_start

/-- One iteration of the unit_sentence_boundaries loop (parsing_agent.py
lines 38-60) at token index i: the four elif branches in source order, each
the conjunction the Python condition short-circuits, marking the token after
the period as a sentence start. -/
def ubStep (doc : List Tok) (i : ℕ) : List Tok :=
  if pyEndsWith (textAt doc i) ["F.", "C."] && decide (i + 1 < doc.length) then
    setStart doc (i + 1)
  else if pyEndsWith (textAt doc i) ["°F.", "°C."] && decide (i + 1 < doc.length) then
    setStart doc (i + 1)
  else if pyEndsWith (textAt doc i) ["F", "C"] && decide (i + 1 < doc.length) &&
      (textAt doc (i + 1) == ".") && decide (i + 2 < doc.length) then
    setStart doc (i + 2)
  else if pyEndsWith (textAt doc i) ["°F", "°C"] && decide (i + 1 < doc.length) &&
      (textAt doc (i + 1) == ".") && decide (i + 2 < doc.length) then
    setStart doc (i + 2)
  else doc

/-- unit_sentence_boundaries (parsing_agent.py lines 35-61): iterate over
every token but the last, in order, applying the boundary rules. -/
def unit_sentence_boundaries (doc : List Tok) : List Tok :=
  (List.range (doc.length - 1)).foldl ubStep doc

/-- Modelled from the spec: spaCy's tokenizer is an external statistical
component; per section 4.3 the rule-based approximation splits a word's one
trailing sentence punctuation mark into its own token. -/
def splitTrailingPunct (w : List Char) : List (List Char) :=
  match w.reverse with
  | c :: d :: restRev =>
    if c = '.' || c = '!' || c = '?' then [(d :: restRev).reverse, [c]] else [w]
  | _ => [w]

/-- Modelled from the spec: whitespace splitting for the rule-based
tokenizer (accumulator holds the current word reversed). -/
def splitWSAux : List Char → List Char → List (List Char)
  | [], cur => if cur = [] then [] else [cur.reverse]
  | c :: rest, cur =>
    if isWS c then
      (if cur = [] then splitWSAux rest [] else cur.reverse :: splitWSAux rest [])
    else splitWSAux rest (c :: cur)

/-- Modelled from the spec: tokenization is whitespace splitting followed by
trailing punctuation detachment. -/
def tokenize (s : String) : List String :=
  (((splitWSAux s.data []).map splitTrailingPunct).flatten).map String.mk

/-- Modelled from the spec: the base sentencizer of the rule-based
approximation marks the first token, and every token following a sentence
punctuation token, as a sentence start; prev is the preceding token. -/
def markBaseStartsAux : Option String → List String → List Tok
  | _, [] => []
  | prev, t :: ts =>
    { text := t
      is_sent_start :=
        match prev with
        | none => true
        | some p => p = "." || p = "!" || p = "?" } :: markBaseStartsAux (some t) ts

/-- Modelled from the spec: base sentence starts before the unit-boundary
component runs (the component only adds starts, which the parser respects). -/
def markBaseStarts (toks : List String) : List Tok :=
  markBaseStartsAux none toks

/-- Group a token stream into sentences at the marked starts (doc.sents);
the accumulator holds the current sentence reversed. -/
def splitSentencesGo : List Tok → List Tok → List (List Tok)
  | [], cur => [cur.reverse]
  | u :: us, cur =>
    if u.is_sent_start then cur.reverse :: splitSentencesGo us [u]
    else splitSentencesGo us (u :: cur)

/-- Sentences of a marked token stream: the first token always opens a
sentence. -/
def splitSentences : List Tok → List (List Tok)
  | [] => []
  | t :: ts => splitSentencesGo ts [t]

/-- Modelled from the spec: sentence text reassembly joins the remaining
tokens with spaces, omitting the space before punctuation tokens. -/
def detokRest : List String → String
  | [] => ""
  | t :: ts =>
    (if t = "." || t = "!" || t = "?" || t = "," then t else " " ++ t) ++ detokRest ts

/-- Modelled from the spec: text of a sentence from its tokens. -/
def detok : List String → String
  | [] => ""
  | t :: ts => t ++ detokRest ts

/-- Python str.strip() on strings. -/
def trimString (s : String) : String :=
  String.mk (trimL s.data)

/-- Embeds _build_sentence_context (parsing_agent.py lines 68-91): segment the raw
text, strip each sentence, and keep the non-empty ones under consecutive
indices starting from 0. -/
def _build_sentence_context (raw_text : String) : List (ℕ × String) :=
  let doc := unit_sentence_boundaries (markBaseStarts (tokenize raw_text))
  (((splitSentences doc).map (fun sent => trimString (detok (sent.map Tok.text)))).filter
    (fun sentence_text => sentence_text ≠ "")).enum

/-- The outcome of Pass 1's model call: client construction failure (caught
and logged) or a response string. -/
inductive Pass1Outcome
  | clientError
  | response (result : String)

/-- parse_recipe (entity_workflow.py lines 171-270).  The inference client
and json.loads are external collaborators, embedded as the outcome and
decode arguments; uuid4 as the id supplies.  Client errors, empty responses
and decode failures all return the pre-call session unchanged. -/
def parse_recipe (recipe : String) (outcome : Pass1Outcome)
    (decode : String → Option ParsedJson) (ingIds eqIds : ℕ → String) :
    RecipeSessionState :=
  let state0 : RecipeSessionState :=
    { raw_text := recipe, parsing_state := ParsingState.PARSING_RECIPE }
  match outcome with
  | .clientError => state0
  | .response result =>
    if result = "" then state0
    else
      let clean_result := extract_json_from_response result
      match decode clean_result with
      | none => state0
      | some parsed =>
        let conv := _convert_json_to_objects ingIds eqIds parsed
        { state0 with
            ingredients := conv.1
            equipment := conv.2.1
            basic_actions := conv.2.2
            parsing_state := ParsingState.COMPLETED }

/-- An action dict from the Pass 2 agent result.  The outer Option marks key
presence, the inner Option a JSON null (which .get with a default does not
mask, and which makes the Pydantic Action constructor fail). -/
structure ActionItem where
  name : Option (Option String) := none
  ingredient_ids : Option (Option (List String)) := none
  equipment_id : Option (Option String) := none
deriving DecidableEq

/-- Truthiness of action["ingredient_ids"] in filter_valid_actions
(tools.py lines 112-116): key present, non-null, non-empty list. -/
def actionHasIngredients (a : ActionItem) : Bool :=
  match a.ingredient_ids with
  | some (some l) => decide (l ≠ [])
  | _ => false

/-- Truthiness of action["equipment_id"] in filter_valid_actions
(tools.py lines 117-122): key present, non-null, non-empty string. -/
def actionHasEquipment (a : ActionItem) : Bool :=
  match a.equipment_id with
  | some (some e) => decide (e ≠ "")
  | _ => false

/-- filter_valid_actions (tools.py lines 99-128): keep an action iff it has
at least one ingredient or a non-empty equipment reference. -/
def filter_valid_actions (actions : List ActionItem) : List ActionItem :=
  actions.filter (fun a => actionHasIngredients a || actionHasEquipment a)

/-- Conversion of one agent action dict (parsing_agent.py lines 266-280):
non-dicts are skipped; .get defaults name to "", ingredient_ids to [] and
equipment_id to ""; a null value reaches the Action constructor and makes it
fail, so the item is skipped. -/
def convertActionItem : JsonItem ActionItem → Option Action
  | .notDict => none
  | .dict it =>
    match it.name.getD (some ""), it.ingredient_ids.getD (some []),
        it.equipment_id.getD (some "") with
    | some n, some l, some e =>
      some { id := "", name := n, ingredient_ids := l, equipment_id := e }
    | _, _, _ => none

/-- The action conversion loop of parse_dependencies with uuid4 embedded as
the actionIds supply. -/
def convertActions (actionIds : ℕ → String) (items : List (JsonItem ActionItem)) :
    List Action :=
  (items.filterMap convertActionItem).enum.map
    (fun pr => { pr.2 with id := actionIds pr.1 })

/-- The shape of the agent run result (parsing_agent.py lines 215-262):
a dict (with an optional actions key), a RunResult wrapper with an output
string, an AgentText, or an unexpected type. -/
inductive AgentRunResult
  | dictResult (actions : Option (List (JsonItem ActionItem)))
  | runResult (output : String)
  | agentText (text : String)
  | otherType

/-- The outcome of Pass 2's agent: construction failure (raises ValueError),
an exception during the run, or a result value. -/
inductive AgentOutcome
  | creationFailure
  | runFailure
  | success (result : AgentRunResult)

/-- Extraction of the actions data from an agent result (parsing_agent.py
lines 214-262).  The string branches search for a greedy brace span; in the
RunResult branch a json.loads failure is uncaught (Except.error, reaching
the outer handler), while the AgentText branch catches it and yields no
actions.  decode embeds json.loads composed with .get of the actions key
(none = decode failure; some none = no actions key). -/
def extractActionsData
    (decode : String → Option (Option (List (JsonItem ActionItem)))) :
    AgentRunResult → Except Unit (List (JsonItem ActionItem))
  | .dictResult actions => .ok (actions.getD [])
  | .runResult output =>
    match braceSpan? output.data with
    | none => .ok []
    | some span =>
      match decode (String.mk span) with
      | none => .error ()
      | some actions => .ok (actions.getD [])
  | .agentText text =>
    match braceSpan? text.data with
    | none => .ok []
    | some span =>
      match decode (String.mk span) with
      | none => .ok []
      | some actions => .ok (actions.getD [])
  | .otherType => .ok []

/-- parse_dependencies (parsing_agent.py lines 94-289).  The guards return
the session unchanged; agent construction failure raises (Except.error);
an exception during the run or result handling is caught and leaves the
session in ERROR state with its entity data untouched; otherwise the
converted actions replace session.actions and the state is COMPLETED. -/
def parse_dependencies (state : RecipeSessionState) (outcome : AgentOutcome)
    (decode : String → Option (Option (List (JsonItem ActionItem))))
    (actionIds : ℕ → String) : Except String RecipeSessionState :=
  if state.ingredients.isEmpty && state.equipment.isEmpty then .ok state
  else if state.basic_actions.isEmpty then .ok state
  else
    match outcome with
    | .creationFailure => .error "Failed to create agent"
    | .runFailure => .ok { state with parsing_state := ParsingState.ERROR }
    | .success result =>
      match extractActionsData decode result with
      | .error _ => .ok { state with parsing_state := ParsingState.ERROR }
      | .ok actions_data =>
        .ok { state with
                actions := convertActions actionIds actions_data
                parsing_state := ParsingState.COMPLETED }

/-- A fixed id supply standing in for uuid4 in concrete runs. -/
def ids0 : ℕ → String := fun n => "id" ++ toString n

/-- A decode oracle that always fails, standing in for json.loads on
non-JSON text in concrete runs. -/
def decodeFail : String → Option (Option (List (JsonItem ActionItem))) :=
  fun _ => none

/-- A session ready for Pass 2: one ingredient and one basic action. -/
def sessionReadyForPass2 : RecipeSessionState :=
  { raw_text := "Stir the flour."
    ingredients := [{ id := "i1", name := "flour", amount := some 2, unit := some "cups",
                      modifiers := [], raw_text := "2 cups flour" }]
    equipment := []
    basic_actions := [{ verb := "stir", sentence := "Stir the flour.", sentence_index := 0 }]
    parsing_state := ParsingState.COMPLETED }

/-- An agent result whose single action dict has an empty ingredient list
and an empty equipment id: filter_valid_actions would discard it, but
parse_dependencies never applies the filter itself. -/
def unfilteredAgentItems : List (JsonItem ActionItem) :=
  [JsonItem.dict
    { name := some (some "stir"), ingredient_ids := some (some []),
      equipment_id := some (some "") }]

/-- A single well-linked agent action dict for concrete runs. -/
def wellLinkedItems : List ActionItem :=
  [{ name := some (some "mix"), ingredient_ids := some (some ["i1"]),
     equipment_id := some (some "e1") }]

/-- The theme color palette (graph_tools.py lines 40-63). -/
structure GraphColors where
  background : String
  text : String
  annotation_text : String
  edges : String
  ingredients : String
  equipment : String
  actions : String
deriving DecidableEq

/-- Embeds _get_theme_colors (graph_tools.py lines 40-63). -/
def _get_theme_colors (dark_mode : Bool) : GraphColors :=
  if dark_mode then
    { background := "#2F2F2F", text := "#FFFFFF", annotation_text := "#CCCCCC",
      edges := "#666666", ingredients := "#00FF7F", equipment := "#FF6347",
      actions := "#87CEEB" }
  else
    { background := "white", text := "#000000", annotation_text := "gray",
      edges := "#888888", ingredients := "#00FF7F", equipment := "#FF4500",
      actions := "#1E90FF" }

/-- A graph node record as _build_graph_data assembles it (the dict key
"type" is the field ntype here). -/
structure GraphNode where
  id : String
  name : String
  ntype : String
  size : ℕ
  color : String
  symbol : String
  hover_text : String
deriving DecidableEq

/-- A graph edge record as _build_graph_data assembles it (the dict key
"type" is the field etype here). -/
structure GraphEdge where
  source : String
  target : String
  etype : String
deriving DecidableEq

/-- Embeds _format_ingredient_hover (graph_tools.py lines 235-245); a float amount
is truthy when non-zero. -/
def _format_ingredient_hover (ingredient : Ingredient) : String :=
  let parts := ["<b>" ++ ingredient.name ++ "</b>"]
  let parts := parts ++
    (match ingredient.amount with
      | some q =>
        if q ≠ 0 then
          ["Amount: " ++ pyFloatStr q ++
            (match ingredient.unit with
              | some u => if u ≠ "" then " " ++ u else ""
              | none => "")]
        else []
      | none => [])
  let parts := parts ++
    (if ingredient.modifiers ≠ [] then
      ["Modifiers: " ++ ", ".intercalate ingredient.modifiers]
    else [])
  "<br>".intercalate parts

/-- Embeds _format_equipment_hover (graph_tools.py lines 248-254). -/
def _format_equipment_hover (equipment : Equipment) : String :=
  let parts := ["<b>" ++ equipment.name ++ "</b>",
    "Required: " ++ (if equipment.required then "Yes" else "No")]
  let parts := parts ++
    (match equipment.modifiers with
      | some m => if m ≠ "" then ["Modifiers: " ++ m] else []
      | none => [])
  "<br>".intercalate parts

/-- Embeds _format_action_hover (graph_tools.py lines 257-277): resolves ingredient
names by id, and the equipment name by id with "Unknown" as the dangling
default. -/
def _format_action_hover (action : Action) (state : RecipeSessionState) : String :=
  let parts := ["<b>Action: " ++ action.name ++ "</b>"]
  let parts := parts ++
    (if action.ingredient_ids ≠ [] then
      let ingredient_names :=
        (state.ingredients.filter
          (fun ing => action.ingredient_ids.contains ing.id)).map Ingredient.name
      if ingredient_names ≠ [] then
        ["Ingredients: " ++ ", ".intercalate ingredient_names]
      else []
    else [])
  let parts := parts ++
    (if action.equipment_id ≠ "" then
      ["Equipment: " ++
        (((state.equipment.find? (fun eq2 => eq2.id == action.equipment_id)).map
          Equipment.name).getD "Unknown")]
    else [])
  "<br>".intercalate parts

/-- Embeds _build_graph_data (graph_tools.py lines 162-232): one node per
ingredient, equipment item and action, ingredient-to-action edges for every
referenced ingredient id, and an action-to-equipment edge when the action's
equipment id is truthy. -/
def _build_graph_data (state : RecipeSessionState) (colors : GraphColors) :
    List GraphNode × List GraphEdge :=
  let ingredientNodes := state.ingredients.map (fun ingredient =>
    { id := ingredient.id, name := ingredient.name, ntype := "ingredient", size := 35,
      color := colors.ingredients, symbol := "circle",
      hover_text := _format_ingredient_hover ingredient : GraphNode })
  let equipmentNodes := state.equipment.map (fun equipment =>
    { id := equipment.id, name := equipment.name, ntype := "equipment", size := 40,
      color := colors.equipment, symbol := "square",
      hover_text := _format_equipment_hover equipment : GraphNode })
  let actionData := state.actions.map (fun action =>
    let node : GraphNode :=
      { id := "action_" ++ action.id, name := action.name, ntype := "action", size := 45,
        color := colors.actions, symbol := "diamond",
        hover_text := _format_action_hover action state }
    let ingredientEdges := action.ingredient_ids.map (fun ingredient_id =>
      { source := ingredient_id, target := "action_" ++ action.id,
        etype := "ingredient_to_action" : GraphEdge })
    let equipmentEdge :=
      if action.equipment_id ≠ "" then
        [{ source := "action_" ++ action.id, target := action.equipment_id,
           etype := "action_to_equipment" : GraphEdge }]
      else []
    (node, ingredientEdges ++ equipmentEdge))
  (ingredientNodes ++ equipmentNodes ++ actionData.map Prod.fst,
    (actionData.map Prod.snd).flatten)

/-- The end-to-end scenario session: two ingredients, one equipment item,
and one action referencing both ingredients and the equipment. -/
def sessionMix : RecipeSessionState :=
  { raw_text := "Mix the flour and salt in a large mixing bowl."
    ingredients :=
      [{ id := "i1", name := "flour", amount := some 2, unit := some "cups",
         modifiers := [], raw_text := "2 cups flour" },
       { id := "i2", name := "salt", amount := some 1, unit := some "tsp",
         modifiers := [], raw_text := "1 tsp salt" }]
    equipment := [{ id := "e1", name := "mixing bowl", required := true, modifiers := none }]
    basic_actions :=
      [{ verb := "mix", sentence := "Mix the flour and salt in a large mixing bowl.",
         sentence_index := 0 }]
    actions := [{ id := "a1", name := "mix", ingredient_ids := ["i1", "i2"],
                  equipment_id := "e1" }]
    parsing_state := ParsingState.COMPLETED }

/-- C10: has_parsed_data() returns true iff both the ingredients list and the
equipment list are non-empty; hence a session with only ingredients reports no
parsed data, which is strictly stronger than the ingredients-OR-equipment
precondition of Pass 2. -/
theorem has_parsed_data_iff_both_nonempty :
    (∀ s : RecipeSessionState,
        s.has_parsed_data = true ↔ (s.ingredients ≠ [] ∧ s.equipment ≠ [])) ∧
    ((sessionIngredientsOnly.ingredients ≠ [] ∨ sessionIngredientsOnly.equipment ≠ []) ∧
      sessionIngredientsOnly.has_parsed_data = false) := by
  constructor
  · intro s
    simp [RecipeSessionState.has_parsed_data, List.length_pos]
  · constructor
    · left
      decide
    · decide

theorem toDigitsCore_length_lt (b : ℕ) :
    ∀ (f n : ℕ) (l : List Char), l.length < (Nat.toDigitsCore b (f + 1) n l).length := by
  intro f
  induction f with
  | zero =>
    intro n l
    simp only [Nat.toDigitsCore]
    split <;> simp
  | succ f ih =>
    intro n l
    simp only [Nat.toDigitsCore]
    split
    · simp
    · exact Nat.lt_trans (by simp) (ih _ _)

theorem natRepr_length_pos (n : ℕ) : 0 < (Nat.repr n).length := by
  have h := toDigitsCore_length_lt 10 n n []
  simpa [Nat.repr, Nat.toDigits, List.asString, String.length] using h

theorem append_ne_empty_of_right_ne_empty (a : String) {b : String} (hb : b ≠ "") :
    a ++ b ≠ "" := by
  intro h
  apply hb
  have hlen := congrArg String.length h
  rw [String.length_append] at hlen
  have h0 : ("" : String).length = 0 := rfl
  rw [h0] at hlen
  have hb0 : b.length = 0 := by omega
  cases b with
  | mk l =>
    cases l with
    | nil => rfl
    | cons c cs => simp [String.length] at hb0

theorem natToString_ne_empty (n : ℕ) : toString n ≠ "" := by
  intro h
  have := natRepr_length_pos n
  rw [show Nat.repr n = toString n from rfl, h] at this
  simp [String.length] at this

theorem intToString_ne_empty (n : ℤ) : toString n ≠ "" := by
  cases n with
  | ofNat m => exact natToString_ne_empty m
  | negSucc m =>
    show "-" ++ toString (m + 1) ≠ ""
    exact append_ne_empty_of_right_ne_empty _ (natToString_ne_empty (m + 1))

theorem JNum.str_ne_empty (x : JNum) : x.str ≠ "" := by
  cases x with
  | jint n => exact intToString_ne_empty n
  | jfloat m e =>
    simp only [JNum.str]
    split
    · exact append_ne_empty_of_right_ne_empty _ (by decide)
    · exact append_ne_empty_of_right_ne_empty _
        (append_ne_empty_of_right_ne_empty _ (natToString_ne_empty _))

/-- C9 counterexample: for the ingredient built from a dict with no name and
modifiers "diced", raw_text is " diced", with a leading space, which differs
from the single-space join of the non-empty parts. -/
theorem raw_text_not_nonempty_join_counterexample :
    ∃ ing : Ingredient, convertIngredientItem ingredientItemNoName = some ing ∧
      ing.raw_text ≠ specRawTextNonEmptyJoin none none "" ["diced"] ∧
      ing.raw_text = " diced" := by
  refine ⟨_, rfl, ?_, ?_⟩ <;> decide

/-- C9 amended: raw_text is the single-space join of the parts in the fixed
order amount (stringified, when present), unit (when non-empty), name, then
the modifiers; the name is always included, even when empty, and modifiers
are joined verbatim.  Whenever the name and every modifier are non-empty this
equals the join of the non-empty parts, and the spec example yields
"2.5 cups flour all-purpose sifted". -/
theorem raw_text_reconstruction (it : IngredientItem) (ing : Ingredient)
    (h : convertIngredientItem (JsonItem.dict it) = some ing)
    (hname : it.name.getD "" ≠ "")
    (hmods : ∀ m ∈ normalizeModifiers it.modifiers, m ≠ "") :
    ing.raw_text =
      specRawTextNonEmptyJoin it.amount it.unit (it.name.getD "")
        (normalizeModifiers it.modifiers) := by
  rcases it with ⟨nf, af, uf, mf⟩
  simp only [convertIngredientItem, Option.some_inj] at h
  subst h
  simp only [ingredientRawText, specRawTextNonEmptyJoin] at hname hmods ⊢
  congr 1
  cases af <;> rcases uf with _ | u <;>
    (try by_cases hu : u = "") <;>
    by_cases hM : normalizeModifiers mf = [] <;>
    simp_all [List.filter_append, List.filter_singleton, JNum.str_ne_empty] <;>
    exact (List.filter_eq_self.2 (fun m hm => by simp [hmods m hm])).symm

/-- C9 witness: the spec example, amount 2.5, unit cups, name flour, modifiers
all-purpose and sifted, reconstructs raw_text "2.5 cups flour all-purpose sifted". -/
theorem raw_text_reconstruction_witness :
    ∃ ing : Ingredient,
      convertIngredientItem (JsonItem.dict
        { name := some "flour", amount := some (JNum.jfloat 25 1),
          unit := some "cups",
          modifiers := ModifiersVal.listv ["all-purpose", "sifted"] }) = some ing ∧
      ing.raw_text = "2.5 cups flour all-purpose sifted" := by
  refine ⟨_, rfl, ?_⟩
  rw [raw_text_reconstruction _ _ rfl (by decide) (by decide)]
  decide

theorem dropWhile_eq_self_of_head?_not {α : Type _} {p : α → Bool} {l : List α} {c : α}
    (h : l.head? = some c) (hc : p c = false) : l.dropWhile p = l := by
  cases l with
  | nil => rfl
  | cons a t =>
    simp only [List.head?_cons, Option.some_inj] at h
    subst h
    simp [List.dropWhile_cons, hc]

theorem rdropWhile_eq_self_of_getLast?_not {α : Type _} {p : α → Bool} {l : List α} {c : α}
    (h : l.getLast? = some c) (hc : p c = false) : l.rdropWhile p = l := by
  unfold List.rdropWhile
  rw [dropWhile_eq_self_of_head?_not (by rwa [List.head?_reverse]) hc, List.reverse_reverse]

theorem trimL_trimL (l : List Char) : trimL (trimL l) = trimL l := by
  unfold trimL
  set m := l.dropWhile isWS with hm
  have h1 : (m.rdropWhile isWS).dropWhile isWS = m.rdropWhile isWS := by
    cases hr : (m.rdropWhile isWS).head? with
    | none =>
      rw [List.head?_eq_none_iff.1 hr]
      rfl
    | some c =>
      apply dropWhile_eq_self_of_head?_not hr
      obtain ⟨t, ht⟩ := List.rdropWhile_prefix isWS m
      have hmhead : m.head? = some c := by
        rw [← ht, List.head?_append, hr]
        rfl
      have hmatch := List.head?_dropWhile_not isWS l
      rw [← hm, hmhead] at hmatch
      exact hmatch
  rw [h1, List.rdropWhile_idempotent]

theorem trimL_infix_self (l : List Char) : trimL l <:+: l := by
  unfold trimL
  obtain ⟨t, ht⟩ := List.rdropWhile_prefix isWS (l.dropWhile isWS)
  obtain ⟨s, hs⟩ := List.dropWhile_suffix (l := l) isWS
  refine ⟨s, t, ?_⟩
  rw [List.append_assoc, ht, hs]

theorem trimL_eq_self {l : List Char} {a b : Char} (h1 : l.head? = some a)
    (ha : isWS a = false) (h2 : l.getLast? = some b) (hb : isWS b = false) :
    trimL l = l := by
  unfold trimL
  rw [dropWhile_eq_self_of_head?_not h1 ha, rdropWhile_eq_self_of_getLast?_not h2 hb]

theorem afterFirst?_infix_of_some {pat : List Char} :
    ∀ {l r : List Char}, afterFirst? pat l = some r → pat <:+: l := by
  intro l
  induction l with
  | nil =>
    intro r h
    simp only [afterFirst?] at h
    split at h
    · next hp =>
      obtain ⟨u, hu⟩ := List.isPrefixOf_iff_prefix.1 hp
      exact ⟨[], u, by simpa using hu⟩
    · exact absurd h (by simp)
  | cons c t ih =>
    intro r h
    simp only [afterFirst?] at h
    split at h
    · next hp =>
      obtain ⟨u, hu⟩ := List.isPrefixOf_iff_prefix.1 hp
      exact ⟨[], u, by simpa using hu⟩
    · next hp =>
      obtain ⟨s, u, hsu⟩ := ih h
      exact ⟨c :: s, u, by rw [← hsu]; rfl⟩

theorem jsonFence?_eq_none {l : List Char} (h : ¬ ("```".data <:+: l)) :
    jsonFence? l = none := by
  unfold jsonFence?
  cases ha : afterFirst? ("```json".data) l with
  | none => rfl
  | some r =>
    exfalso
    apply h
    obtain ⟨s, t, hst⟩ := afterFirst?_infix_of_some ha
    refine ⟨s, "json".data ++ t, ?_⟩
    have hjoin : "```".data ++ "json".data = "```json".data := rfl
    rw [← hst, ← hjoin]
    simp [List.append_assoc]

theorem genericFence?_eq_none {l : List Char} (h : ¬ ("```".data <:+: l)) :
    genericFence? l = none := by
  unfold genericFence?
  cases ha : afterFirst? ("```".data) l with
  | none => rfl
  | some r => exact absurd (afterFirst?_infix_of_some ha) h

theorem braceSpan?_facts {l s : List Char} (hb : braceSpan? l = some s) :
    s.head? = some '{' ∧ s.getLast? = some '}' ∧ s <:+: l := by
  unfold braceSpan? at hb
  cases hm : l.dropWhile (fun c => c ≠ '{') with
  | nil => rw [hm] at hb; exact absurd hb (by simp [braceSpanOpen])
  | cons lb rest =>
    rw [hm] at hb
    simp only [braceSpanOpen] at hb
    have hlb : lb = '{' := by
      have hmatch := List.head?_dropWhile_not (fun c => decide (c ≠ '{')) l
      rw [hm] at hmatch
      simpa using hmatch
    cases hr : (lb :: rest).reverse.dropWhile (fun c => c ≠ '}') with
    | nil => rw [hr] at hb; exact absurd hb (by simp [braceSpanClose])
    | cons rb revMid =>
      rw [hr] at hb
      simp only [braceSpanClose, Option.some_inj] at hb
      have hrb : rb = '}' := by
        have hmatch := List.head?_dropWhile_not (fun c => decide (c ≠ '}')) (lb :: rest).reverse
        rw [hr] at hmatch
        simpa using hmatch
      subst hb
      refine ⟨?_, ?_, ?_⟩
      · -- the head of the span is the first brace lb
        obtain ⟨t, ht⟩ := List.dropWhile_suffix (l := (lb :: rest).reverse) (fun c => c ≠ '}')
        rw [hr] at ht
        have hgl : (rb :: revMid).getLast? = some lb := by
          have := congrArg List.getLast? ht
          rw [List.getLast?_append] at this
          rw [show (rb :: revMid).getLast?.or t.getLast? = (rb :: revMid).getLast? from ?_] at this
          · rw [this, List.getLast?_reverse]
            rfl
          · cases hgl2 : (rb :: revMid).getLast? with
            | none => exact absurd hgl2 (by simp)
            | some x => rfl
        rw [List.head?_reverse, hgl, hlb]
      · rw [List.getLast?_reverse]
        simp [hrb]
      · -- the span is an infix: a prefix of the dropWhile suffix of l
        obtain ⟨t, ht⟩ := List.dropWhile_suffix (l := (lb :: rest).reverse) (fun c => c ≠ '}')
        rw [hr] at ht
        obtain ⟨u, hu⟩ := List.dropWhile_suffix (l := l) (fun c => c ≠ '{')
        rw [hm] at hu
        have hpre : (rb :: revMid).reverse <+: (lb :: rest) := by
          rw [show lb :: rest = (lb :: rest).reverse.reverse from (List.reverse_reverse _).symm,
            List.reverse_prefix]
          exact ⟨t, ht⟩
        obtain ⟨v, hv⟩ := hpre
        exact ⟨u, v, by rw [List.append_assoc, hv, hu]⟩

theorem braceSpan?_self {s : List Char} (h1 : s.head? = some '{')
    (h2 : s.getLast? = some '}') : braceSpan? s = some s := by
  unfold braceSpan?
  rw [dropWhile_eq_self_of_head?_not h1 (by decide)]
  cases s with
  | nil => exact absurd h1 (by simp)
  | cons c t =>
    have hrev : (c :: t).reverse.dropWhile (fun c => c ≠ '}') = (c :: t).reverse := by
      apply dropWhile_eq_self_of_head?_not (c := '}')
      · rw [List.head?_reverse]
        exact h2
      · decide
    simp only [braceSpanOpen]
    rw [hrev]
    cases hr : (c :: t).reverse with
    | nil => exact absurd (congrArg List.length hr) (by simp)
    | cons rb revMid =>
      simp only [braceSpanClose, Option.some_inj]
      rw [← hr, List.reverse_reverse]

theorem cleanChars_idem {l : List Char} (hf : ¬ ("```".data <:+: l)) :
    cleanChars (cleanChars l) = cleanChars l := by
  have hfl : ∀ x, x <:+: l → ¬ ("```".data <:+: x) := fun x hx hc => hf (hc.trans hx)
  by_cases ht : trimL l = []
  · have hcl : cleanChars l = [] := by simp [cleanChars, ht]
    rw [hcl]
    rfl
  · have hfi : ¬ ("```".data <:+: trimL l) := hfl _ (trimL_infix_self l)
    have hj : jsonFence? (trimL l) = none := jsonFence?_eq_none hfi
    have hg : genericFence? (trimL l) = none := genericFence?_eq_none hfi
    cases hbs : braceSpan? (trimL l) with
    | some s =>
      obtain ⟨h1, h2, h3⟩ := braceSpan?_facts hbs
      have hts : trimL s = s := trimL_eq_self h1 (by decide) h2 (by decide)
      have hcl : cleanChars l = s := by
        simp [cleanChars, ht, hj, hg, hbs, hts]
      rw [hcl]
      have hsne : s ≠ [] := by
        intro hnil
        rw [hnil] at h1
        exact absurd h1 (by simp)
      have hfs : ¬ ("```".data <:+: s) := hfl _ (h3.trans (trimL_infix_self l))
      simp [cleanChars, hts, hsne, jsonFence?_eq_none hfs, genericFence?_eq_none hfs,
        braceSpan?_self h1 h2]
    | none =>
      have hcl : cleanChars l = trimL l := by
        simp [cleanChars, ht, hj, hg, hbs]
      rw [hcl]
      simp [cleanChars, trimL_trimL, ht, hj, hg, hbs]

/-- C8: the response cleaner is idempotent on fence-free inputs: for every
string x containing no triple-backtick fence,
extract_json_from_response (extract_json_from_response x) equals
extract_json_from_response x. -/
theorem clean_idempotent_on_fence_free (x : String) (h : fenceFree x) :
    extract_json_from_response (extract_json_from_response x) =
      extract_json_from_response x :=
  congrArg String.mk (cleanChars_idem h)

/-- C8 witness: a concrete fence-free response with surrounding prose is
cleaned to its brace span, and cleaning is idempotent on it. -/
theorem clean_idempotent_on_fence_free_witness :
    fenceFree "result: \x7b\"a\": 1\x7d done" ∧
      extract_json_from_response (extract_json_from_response "result: \x7b\"a\": 1\x7d done") =
        extract_json_from_response "result: \x7b\"a\": 1\x7d done" :=
  ⟨by decide, clean_idempotent_on_fence_free _ (by decide)⟩

theorem setStart_map_text : ∀ (l : List Tok) (j : ℕ),
    (setStart l j).map Tok.text = l.map Tok.text := by
  intro l
  induction l with
  | nil => intro j; rfl
  | cons t ts ih =>
    intro j
    cases j with
    | zero => rfl
    | succ j => simp [setStart, ih j]

theorem ubStep_map_text (doc : List Tok) (i : ℕ) :
    (ubStep doc i).map Tok.text = doc.map Tok.text := by
  unfold ubStep
  split
  · exact setStart_map_text _ _
  · split
    · exact setStart_map_text _ _
    · split
      · exact setStart_map_text _ _
      · split
        · exact setStart_map_text _ _
        · rfl

theorem ubStep_length (doc : List Tok) (i : ℕ) : (ubStep doc i).length = doc.length := by
  have h := congrArg List.length (ubStep_map_text doc i)
  simpa using h

theorem textAt_eq_map : ∀ (doc : List Tok) (i : ℕ),
    textAt doc i = (doc.map Tok.text).getD i "" := by
  intro doc
  induction doc with
  | nil => intro i; rfl
  | cons t ts ih =>
    intro i
    cases i with
    | zero => rfl
    | succ i => simpa [textAt, List.getD] using ih i

theorem ubStep_textAt (doc : List Tok) (i k : ℕ) :
    textAt (ubStep doc i) k = textAt doc k := by
  rw [textAt_eq_map, textAt_eq_map, ubStep_map_text]

theorem setStart_startAt_of_true : ∀ (l : List Tok) (j k : ℕ),
    startAt l k = true → startAt (setStart l j) k = true := by
  intro l
  induction l with
  | nil => intro j k h; exact h
  | cons t ts ih =>
    intro j k h
    cases j with
    | zero =>
      cases k with
      | zero => rfl
      | succ k => simpa [setStart, startAt, List.getD] using h
    | succ j =>
      cases k with
      | zero => simpa [setStart, startAt, List.getD] using h
      | succ k =>
        have hk : startAt ts k = true := by simpa [startAt, List.getD] using h
        simpa [setStart, startAt, List.getD] using ih j k hk

theorem setStart_startAt_self : ∀ (l : List Tok) (j : ℕ), j < l.length →
    startAt (setStart l j) j = true := by
  intro l
  induction l with
  | nil => intro j h; simp at h
  | cons t ts ih =>
    intro j h
    cases j with
    | zero => rfl
    | succ j =>
      have hj : j < ts.length := by simpa using h
      simpa [setStart, startAt, List.getD] using ih j hj

theorem ubStep_startAt_mono (doc : List Tok) (i k : ℕ) (h : startAt doc k = true) :
    startAt (ubStep doc i) k = true := by
  unfold ubStep
  split
  · exact setStart_startAt_of_true _ _ _ h
  · split
    · exact setStart_startAt_of_true _ _ _ h
    · split
      · exact setStart_startAt_of_true _ _ _ h
      · split
        · exact setStart_startAt_of_true _ _ _ h
        · exact h

theorem foldl_ubStep_mono : ∀ (idxs : List ℕ) (doc : List Tok) (k : ℕ),
    startAt doc k = true → startAt (idxs.foldl ubStep doc) k = true := by
  intro idxs
  induction idxs with
  | nil => intro doc k h; exact h
  | cons j js ih =>
    intro doc k h
    exact ih (ubStep doc j) k (ubStep_startAt_mono doc j k h)

theorem last_of_pyEndsWith_FC {s : String} (h : pyEndsWith s ["F", "C"] = true) :
    s.data.getLast? = some 'F' ∨ s.data.getLast? = some 'C' := by
  unfold pyEndsWith at h
  simp only [List.any_cons, List.any_nil, Bool.or_false, Bool.or_eq_true,
    List.isSuffixOf_iff_suffix] at h
  rcases h with h | h
  · obtain ⟨t, ht⟩ := h
    left
    rw [← ht, List.getLast?_append]
    rfl
  · obtain ⟨t, ht⟩ := h
    right
    rw [← ht, List.getLast?_append]
    rfl

theorem not_pyEndsWith_dotted {s : String}
    (hlast : s.data.getLast? = some 'F' ∨ s.data.getLast? = some 'C') :
    pyEndsWith s ["F.", "C."] = false ∧ pyEndsWith s ["°F.", "°C."] = false := by
  have hdot : ∀ suf : String, suf.data.getLast? = some '.' →
      suf.data.isSuffixOf s.data = true → False := by
    intro suf hsuf hsfx
    obtain ⟨t, ht⟩ := List.isSuffixOf_iff_suffix.1 hsfx
    have h1 : s.data.getLast? = some '.' := by
      rw [← ht, List.getLast?_append, hsuf]
      rfl
    rcases hlast with h2 | h2 <;> rw [h1] at h2 <;> exact absurd h2 (by decide)
  constructor <;>
  · rw [← Bool.not_eq_true]
    intro h
    unfold pyEndsWith at h
    simp only [List.any_cons, List.any_nil, Bool.or_false, Bool.or_eq_true] at h
    rcases h with h | h <;> exact hdot _ (by decide) h

theorem ubStep_fires_fused (doc : List Tok) (i : ℕ) (hb : i + 1 < doc.length)
    (hc : pyEndsWith (textAt doc i) ["F.", "C."] = true) :
    startAt (ubStep doc i) (i + 1) = true := by
  unfold ubStep
  rw [hc]
  simp only [hb, decide_True, Bool.and_self, if_true, Bool.true_and]
  exact setStart_startAt_self _ _ hb

theorem ubStep_fires_separated (doc : List Tok) (i : ℕ) (hb : i + 2 < doc.length)
    (hF : pyEndsWith (textAt doc i) ["F", "C"] = true)
    (hdot : textAt doc (i + 1) = ".") :
    startAt (ubStep doc i) (i + 2) = true := by
  obtain ⟨h1, h2⟩ := not_pyEndsWith_dotted (last_of_pyEndsWith_FC hF)
  have hb1 : i + 1 < doc.length := by omega
  unfold ubStep
  rw [h1, h2, hF, hdot]
  simp only [hb, hb1, decide_True, Bool.false_and, Bool.true_and, Bool.and_self,
    if_false, beq_self_eq_true, Bool.and_true, if_true]
  exact setStart_startAt_self _ _ hb

theorem foldl_ubStep_fires_fused : ∀ (idxs : List ℕ) (doc : List Tok) (i : ℕ),
    i ∈ idxs → i + 1 < doc.length →
    pyEndsWith (textAt doc i) ["F.", "C."] = true →
    startAt (idxs.foldl ubStep doc) (i + 1) = true := by
  intro idxs
  induction idxs with
  | nil => intro doc i hmem; simp at hmem
  | cons k ks ih =>
    intro doc i hmem hb hc
    rw [List.foldl_cons]
    rcases List.mem_cons.1 hmem with rfl | hmem2
    · exact foldl_ubStep_mono ks _ _ (ubStep_fires_fused doc i hb hc)
    · refine ih (ubStep doc k) i hmem2 ?_ ?_
      · rwa [ubStep_length]
      · rwa [ubStep_textAt]

theorem foldl_ubStep_fires_separated : ∀ (idxs : List ℕ) (doc : List Tok) (i : ℕ),
    i ∈ idxs → i + 2 < doc.length →
    pyEndsWith (textAt doc i) ["F", "C"] = true →
    textAt doc (i + 1) = "." →
    startAt (idxs.foldl ubStep doc) (i + 2) = true := by
  intro idxs
  induction idxs with
  | nil => intro doc i hmem; simp at hmem
  | cons k ks ih =>
    intro doc i hmem hb hF hdot
    rw [List.foldl_cons]
    rcases List.mem_cons.1 hmem with rfl | hmem2
    · exact foldl_ubStep_mono ks _ _ (ubStep_fires_separated doc i hb hF hdot)
    · refine ih (ubStep doc k) i hmem2 ?_ ?_ ?_
      · rwa [ubStep_length]
      · rwa [ubStep_textAt]
      · rwa [ubStep_textAt]

/-- C7: a unit abbreviation F or C followed by a period forces a sentence
boundary immediately after the period, whether the period is fused into the
token (which also covers the degree forms 350°F.) or is a separate following
token; and the three-sentence oven example segments into exactly the three
expected consecutively-indexed entries, with entry 0 ending at "350F.". -/
theorem unit_sentence_boundary_behavior :
    (∀ (doc : List Tok) (i : ℕ), i + 1 < doc.length →
        pyEndsWith (textAt doc i) ["F.", "C."] = true →
        startAt (unit_sentence_boundaries doc) (i + 1) = true) ∧
    (∀ (doc : List Tok) (i : ℕ), i + 2 < doc.length →
        pyEndsWith (textAt doc i) ["F", "C"] = true →
        textAt doc (i + 1) = "." →
        startAt (unit_sentence_boundaries doc) (i + 2) = true) ∧
    _build_sentence_context
        "Heat the oven to 350F. Mix flour and salt in a bowl. Bake for 30 minutes." =
      [(0, "Heat the oven to 350F."), (1, "Mix flour and salt in a bowl."),
        (2, "Bake for 30 minutes.")] := by
  refine ⟨?_, ?_, ?_⟩
  · intro doc i hb hc
    exact foldl_ubStep_fires_fused _ doc i (List.mem_range.2 (by omega)) hb hc
  · intro doc i hb hF hdot
    exact foldl_ubStep_fires_separated _ doc i (List.mem_range.2 (by omega)) hb hF hdot
  · set_option maxRecDepth 8000 in decide

/-- C7 witness: the boundary rules applied to concrete two- and three-token
documents, discharging the bounds and endswith hypotheses. -/
theorem unit_sentence_boundary_behavior_witness :
    startAt (unit_sentence_boundaries
      [{ text := "350F.", is_sent_start := true }, { text := "Mix", is_sent_start := false }]) 1
        = true ∧
    startAt (unit_sentence_boundaries
      [{ text := "350F", is_sent_start := true }, { text := ".", is_sent_start := false },
        { text := "Bake", is_sent_start := false }]) 2 = true :=
  ⟨unit_sentence_boundary_behavior.1 _ 0 (by decide) (by decide),
    unit_sentence_boundary_behavior.2.1 _ 0 (by decide) (by decide) (by decide)⟩

/-- C6: whenever basic_actions is empty, or ingredients and equipment are
both empty, parse_dependencies returns the session unchanged regardless of
the agent outcome — a no-op, not an error. -/
theorem parse_dependencies_noop_on_missing_inputs (state : RecipeSessionState)
    (outcome : AgentOutcome)
    (decode : String → Option (Option (List (JsonItem ActionItem))))
    (actionIds : ℕ → String)
    (h : state.basic_actions = [] ∨ (state.ingredients = [] ∧ state.equipment = [])) :
    parse_dependencies state outcome decode actionIds = Except.ok state := by
  unfold parse_dependencies
  rcases h with h | ⟨h1, h2⟩
  · split
    · rfl
    · simp [List.isEmpty_iff, h]
  · simp [List.isEmpty_iff, h1, h2]

/-- C6 witness: a session with ingredients and equipment but no basic
actions passes through parse_dependencies unchanged even when the agent
run would fail. -/
theorem parse_dependencies_noop_witness :
    parse_dependencies
        { raw_text := "Stir."
          ingredients := [{ id := "i1", name := "flour", amount := none, unit := none,
                            modifiers := [], raw_text := "flour" }]
          equipment := []
          basic_actions := []
          parsing_state := ParsingState.COMPLETED }
        AgentOutcome.runFailure decodeFail ids0 =
      Except.ok
        { raw_text := "Stir."
          ingredients := [{ id := "i1", name := "flour", amount := none, unit := none,
                            modifiers := [], raw_text := "flour" }]
          equipment := []
          basic_actions := []
          parsing_state := ParsingState.COMPLETED } :=
  parse_dependencies_noop_on_missing_inputs _ _ _ _ (Or.inl rfl)

/-- C3 counterexample: on a session that passes the Pass 2 guards, an
exception during the agent run leaves the session in ERROR, which is not
DEPENDENCIES_ERROR. -/
theorem pass2_run_failure_not_dependencies_error :
    parse_dependencies sessionReadyForPass2 AgentOutcome.runFailure decodeFail ids0 =
      Except.ok { sessionReadyForPass2 with parsing_state := ParsingState.ERROR } ∧
    ParsingState.ERROR ≠ ParsingState.DEPENDENCIES_ERROR :=
  ⟨rfl, by decide⟩

/-- C3 amended: on a Pass 2 run failure the session transitions (through
PARSING_DEPENDENCIES) to ERROR — not to DEPENDENCIES_ERROR, which
parse_dependencies never assigns — and the entity data is untouched. -/
theorem pass2_run_failure_sets_error (state : RecipeSessionState)
    (decode : String → Option (Option (List (JsonItem ActionItem))))
    (actionIds : ℕ → String)
    (hentities : state.ingredients ≠ [] ∨ state.equipment ≠ [])
    (hbasic : state.basic_actions ≠ []) :
    parse_dependencies state AgentOutcome.runFailure decode actionIds =
      Except.ok { state with parsing_state := ParsingState.ERROR } := by
  unfold parse_dependencies
  have hguard : (state.ingredients.isEmpty && state.equipment.isEmpty) = false := by
    rcases hentities with h | h <;> simp [List.isEmpty_iff, h]
  rw [hguard]
  simp [List.isEmpty_iff, hbasic]

/-- C3 witness: the amended transition on a concrete ready session. -/
theorem pass2_run_failure_sets_error_witness :
    parse_dependencies sessionReadyForPass2 AgentOutcome.runFailure decodeFail ids0 =
      Except.ok { sessionReadyForPass2 with parsing_state := ParsingState.ERROR } :=
  pass2_run_failure_sets_error _ _ _ (Or.inl (by decide)) (by decide)

/-- C1 counterexample: when the agent returns an action dict with an empty
ingredient list and empty equipment id (i.e. it skipped the
filter_valid_actions tool), parse_dependencies materializes that action and
completes, so the returned session violates the Action invariant. -/
theorem pass2_materializes_unfiltered_action :
    ∃ s : RecipeSessionState,
      parse_dependencies sessionReadyForPass2
          (AgentOutcome.success (AgentRunResult.dictResult (some unfilteredAgentItems)))
          decodeFail ids0 = Except.ok s ∧
      s.parsing_state = ParsingState.COMPLETED ∧
      ¬ (∀ a ∈ s.actions, a.ingredient_ids ≠ [] ∨ a.equipment_id ≠ "") := by
  refine ⟨_, rfl, rfl, ?_⟩
  decide

/-- C1 amended: the Action invariant holds for every action materialized
from an agent result that passed the filter_valid_actions tool; the filter
is enforced by the tool, not re-applied by parse_dependencies itself. -/
theorem filtered_actions_satisfy_invariant (items : List ActionItem)
    (actionIds : ℕ → String) (a : Action)
    (ha : a ∈ convertActions actionIds ((filter_valid_actions items).map JsonItem.dict)) :
    a.ingredient_ids ≠ [] ∨ a.equipment_id ≠ "" := by
  unfold convertActions at ha
  obtain ⟨⟨k, a0⟩, hmem, rfl⟩ := List.mem_map.1 ha
  show a0.ingredient_ids ≠ [] ∨ a0.equipment_id ≠ ""
  have ha0 : a0 ∈ ((filter_valid_actions items).map JsonItem.dict).filterMap
      convertActionItem := by
    have hk := List.mk_mem_enum_iff_getElem?.1 hmem
    exact List.getElem?_mem hk
  obtain ⟨d, hd, hconv⟩ := List.mem_filterMap.1 ha0
  obtain ⟨it, hit, rfl⟩ := List.mem_map.1 hd
  have hvalid : (actionHasIngredients it || actionHasEquipment it) = true :=
    (List.mem_filter.1 hit).2
  simp only [convertActionItem] at hconv
  rcases (by simpa using hvalid :
      actionHasIngredients it = true ∨ actionHasEquipment it = true) with hI | hE
  · -- the item has a non-empty ingredient list
    unfold actionHasIngredients at hI
    rcases hiv : it.ingredient_ids with _ | iv2 <;> rw [hiv] at hI
    · exact absurd hI (by simp)
    rcases iv2 with _ | lst
    · exact absurd hI (by simp)
    have hlst : lst ≠ [] := by simpa using hI
    rw [hiv] at hconv
    rcases hnv : it.name.getD (some "") with _ | n <;> rw [hnv] at hconv
    · simp at hconv
    simp only [Option.getD_some] at hconv
    rcases hev : it.equipment_id.getD (some "") with _ | e <;> rw [hev] at hconv
    · simp at hconv
    simp only [Option.some_inj] at hconv
    subst hconv
    exact Or.inl (by simpa using hlst)
  · -- the item has a non-empty equipment id
    unfold actionHasEquipment at hE
    rcases hev : it.equipment_id with _ | ev2 <;> rw [hev] at hE
    · exact absurd hE (by simp)
    rcases ev2 with _ | e
    · exact absurd hE (by simp)
    have he : e ≠ "" := by simpa using hE
    rw [hev] at hconv
    rcases hnv : it.name.getD (some "") with _ | n <;> rw [hnv] at hconv
    · simp at hconv
    rcases hiv : it.ingredient_ids.getD (some []) with _ | lst <;> rw [hiv] at hconv
    · simp at hconv
    simp only [Option.getD_some, Option.some_inj] at hconv
    subst hconv
    exact Or.inr (by simpa using he)

/-- C1 witness: a filtered agent result with one well-linked action converts
to an action satisfying the invariant. -/
theorem filtered_actions_satisfy_invariant_witness :
    ∃ a : Action,
      a ∈ convertActions ids0 ((filter_valid_actions wellLinkedItems).map JsonItem.dict) ∧
      (a.ingredient_ids ≠ [] ∨ a.equipment_id ≠ "") := by
  refine ⟨{ id := ids0 0, name := "mix", ingredient_ids := ["i1"], equipment_id := "e1" },
    ?_, ?_⟩
  · decide
  · exact filtered_actions_satisfy_invariant wellLinkedItems ids0 _ (by decide)

/-- C4 counterexample: a Pass 1 response whose JSON cannot be decoded leaves
the returned session in PARSING_RECIPE, not INITIAL. -/
theorem pass1_decode_failure_not_initial :
    (parse_recipe "Mix the flour." (Pass1Outcome.response "not json")
        (fun _ => none) ids0 ids0).parsing_state = ParsingState.PARSING_RECIPE ∧
    ParsingState.PARSING_RECIPE ≠ ParsingState.INITIAL :=
  ⟨rfl, by decide⟩

/-- C4 amended: when Pass 1 produces no usable entities (empty model
response or undecodable JSON), the returned session stays in PARSING_RECIPE
(a non-terminal state); the reset to INITIAL is performed by the UI caller,
not by parse_recipe. -/
theorem pass1_unusable_entities_state (recipe r : String)
    (decode : String → Option ParsedJson) (ingIds eqIds : ℕ → String)
    (h : r = "" ∨ decode (extract_json_from_response r) = none) :
    (parse_recipe recipe (Pass1Outcome.response r) decode ingIds eqIds).parsing_state =
      ParsingState.PARSING_RECIPE := by
  unfold parse_recipe
  rcases h with rfl | hd
  · simp
  · by_cases hr : r = ""
    · simp [hr]
    · simp [hr, hd]

/-- C4 witness: the amended statement at a concrete undecodable response. -/
theorem pass1_unusable_entities_state_witness :
    (parse_recipe "Mix the flour." (Pass1Outcome.response "not json")
        (fun _ => none) ids0 ids0).parsing_state = ParsingState.PARSING_RECIPE :=
  pass1_unusable_entities_state _ _ _ _ _ (Or.inr rfl)

/-- C5: on a JSON decode failure the returned session preserves raw_text,
has all four entity lists empty, and is in a non-terminal state (neither
COMPLETED nor ERROR). -/
theorem pass1_decode_failure_returns_empty_session (recipe r : String)
    (decode : String → Option ParsedJson) (ingIds eqIds : ℕ → String)
    (hr : r ≠ "") (hd : decode (extract_json_from_response r) = none) :
    (parse_recipe recipe (Pass1Outcome.response r) decode ingIds eqIds).raw_text = recipe ∧
    (parse_recipe recipe (Pass1Outcome.response r) decode ingIds eqIds).ingredients = [] ∧
    (parse_recipe recipe (Pass1Outcome.response r) decode ingIds eqIds).equipment = [] ∧
    (parse_recipe recipe (Pass1Outcome.response r) decode ingIds eqIds).basic_actions = [] ∧
    (parse_recipe recipe (Pass1Outcome.response r) decode ingIds eqIds).actions = [] ∧
    (parse_recipe recipe (Pass1Outcome.response r) decode ingIds eqIds).parsing_state ≠
      ParsingState.COMPLETED ∧
    (parse_recipe recipe (Pass1Outcome.response r) decode ingIds eqIds).parsing_state ≠
      ParsingState.ERROR := by
  unfold parse_recipe
  simp [hr, hd]

/-- C5 witness: the concrete undecodable response yields the empty
non-terminal session with raw_text preserved. -/
theorem pass1_decode_failure_returns_empty_session_witness :
    (parse_recipe "Mix the flour." (Pass1Outcome.response "not json")
        (fun _ => none) ids0 ids0).raw_text = "Mix the flour." ∧
    (parse_recipe "Mix the flour." (Pass1Outcome.response "not json")
        (fun _ => none) ids0 ids0).ingredients = [] ∧
    (parse_recipe "Mix the flour." (Pass1Outcome.response "not json")
        (fun _ => none) ids0 ids0).equipment = [] ∧
    (parse_recipe "Mix the flour." (Pass1Outcome.response "not json")
        (fun _ => none) ids0 ids0).basic_actions = [] ∧
    (parse_recipe "Mix the flour." (Pass1Outcome.response "not json")
        (fun _ => none) ids0 ids0).actions = [] ∧
    (parse_recipe "Mix the flour." (Pass1Outcome.response "not json")
        (fun _ => none) ids0 ids0).parsing_state ≠ ParsingState.COMPLETED ∧
    (parse_recipe "Mix the flour." (Pass1Outcome.response "not json")
        (fun _ => none) ids0 ids0).parsing_state ≠ ParsingState.ERROR :=
  pass1_decode_failure_returns_empty_session _ _ _ _ _ (by decide) rfl

/-- C2 counterexample: for the two-ingredient one-equipment one-action
session, the graph does not have 3 nodes and 2 edges. -/
theorem graph_not_three_nodes_two_edges :
    ¬ (((_build_graph_data sessionMix (_get_theme_colors false)).1.length = 3) ∧
       ((_build_graph_data sessionMix (_get_theme_colors false)).2.length = 2)) := by
  decide

/-- C2 amended: for a session with exactly 2 ingredients, 1 equipment item
and 1 action whose ingredient_ids are the two ingredient ids and whose
equipment_id is the equipment's id, the graph builder produces exactly
4 nodes (2 ingredient, 1 equipment, 1 action) and 3 edges (2
ingredient-to-action, 1 action-to-equipment). -/
theorem graph_four_nodes_three_edges :
    ((_build_graph_data sessionMix (_get_theme_colors false)).1.length = 4) ∧
    ((_build_graph_data sessionMix (_get_theme_colors false)).2.length = 3) := by
  decide

end RecipeBoard
